import Mathlib

/-!
Verification of the DFC-Expenses storefront ordering tool
(`Product_order_list.py`, `Product_order_list_2.py`).

The Python code is shallowly embedded: pandas DataFrames holding the cart
and the order ledger become Lean lists of records, Python floats become
rationals (`ℚ`), Python ints become `ℤ`, Python strings become `String` or
`List Char` (the latter where per-character processing matters).
Nondeterministic inputs of the code (the random UUID, the wall-clock
timestamp, the on-disk ledger file) are passed in explicitly.
-/

/-- One cart line, as built by `add_to_cart` in `Product_order_list.py`:
`{"OrderID": None, "Product": ..., "Supplier": ..., "Price": float(price),
"Qty": int(qty), "Weight": weight_str, "LineTotal": float(price) * int(qty)}`. -/
structure CartLine where
  orderID : Option String
  product : String
  supplier : String
  price : ℚ
  qty : ℤ
  weight : String
  lineTotal : ℚ
  deriving Repr, DecidableEq

/-- One ledger row, as built inside `save_order`:
`{"OrderID": order_id, "Timestamp": now, "Product": ..., "Supplier": ...,
"Price": ..., "Qty": ..., "Weight": ..., "LineTotal": ..., "DiscountPct": ...}`. -/
structure OrderRow where
  orderID : String
  timestamp : String
  product : String
  supplier : String
  price : ℚ
  qty : ℤ
  weight : String
  lineTotal : ℚ
  discountPct : ℚ
  deriving Repr, DecidableEq

/-- `add_to_cart(product, supplier, price, qty, weight_str)`:
appends one line to `st.session_state.cart`, with
`LineTotal = float(price) * int(qty)` computed at append time. -/
def add_to_cart (cart : List CartLine) (product supplier : String)
    (price : ℚ) (qty : ℤ) (weight_str : String) : List CartLine :=
  cart ++ [{ orderID := none, product := product, supplier := supplier,
             price := price, qty := qty, weight := weight_str,
             lineTotal := price * qty }]

/-- `clear_cart()`: `st.session_state.cart = []`. -/
def clear_cart (_ : List CartLine) : List CartLine := []

/-- `compute_cart_totals(discount_pct)`: sums the `LineTotal` column
(`0.0` for an empty cart), then
`discount_val = subtotal * (discount_pct / 100.0)`,
`total = subtotal - discount_val`; returns `(subtotal, discount_val, total)`. -/
def compute_cart_totals (cart : List CartLine) (discount_pct : ℚ) : ℚ × ℚ × ℚ :=
  let subtotal : ℚ := (cart.map (·.lineTotal)).sum
  let discount_val : ℚ := subtotal * (discount_pct / 100)
  (subtotal, discount_val, subtotal - discount_val)

/-- The row `save_order` builds for one cart line: order-level fields
(`OrderID`, `Timestamp`, `DiscountPct`) attached to the line's own fields. -/
def order_row_of_line (order_id now : String) (discount_pct : ℚ)
    (line : CartLine) : OrderRow :=
  { orderID := order_id, timestamp := now, product := line.product,
    supplier := line.supplier, price := line.price, qty := line.qty,
    weight := line.weight, lineTotal := line.lineTotal,
    discountPct := discount_pct }

/-- `save_order(cart, discount_pct)`, with its nondeterministic inputs made
explicit: `existing` is the on-disk ledger (`none` when `ORDER_FILE` does not
exist), `order_id` the generated id and `now` the timestamp string.
Builds one row per cart line, concatenates onto the existing ledger
(`pd.concat([df_existing, df_new])`, or just `df_new` when the file is
missing), and returns `(order_id, df_new, df_out)` where `df_out` is what is
written back to `ORDER_FILE`. -/
def save_order (existing : Option (List OrderRow)) (cart : List CartLine)
    (discount_pct : ℚ) (order_id now : String) :
    String × List OrderRow × List OrderRow :=
  let rows := cart.map (order_row_of_line order_id now discount_pct)
  match existing with
  | some l => (order_id, rows, l ++ rows)
  | none => (order_id, rows, rows)

/-- C2: `compute_cart_totals` returns `(subtotal, discount_amount, total)`
with `subtotal` the sum of `LineTotal` over the cart (`0` for the empty
cart), `discount_amount = subtotal * discount_pct / 100` and
`total = subtotal - discount_amount`.  The embedding is a pure function of
its arguments, matching the Python function's lack of side effects. -/
theorem compute_cart_totals_spec (cart : List CartLine) (discount_pct : ℚ) :
    (compute_cart_totals cart discount_pct).1 = (cart.map (·.lineTotal)).sum ∧
    (compute_cart_totals ([] : List CartLine) discount_pct).1 = 0 ∧
    (compute_cart_totals cart discount_pct).2.1 =
      (compute_cart_totals cart discount_pct).1 * discount_pct / 100 ∧
    (compute_cart_totals cart discount_pct).2.2 =
      (compute_cart_totals cart discount_pct).1 -
        (compute_cart_totals cart discount_pct).2.1 := by
  refine ⟨rfl, by simp [compute_cart_totals], ?_, rfl⟩
  simp [compute_cart_totals, mul_div_assoc]

/-- C9: for non-negative `unit_price` and integer `quantity ≥ 1`,
`add_to_cart` appends exactly one line whose `LineTotal` field is
`unit_price * quantity`, computed eagerly at append time. -/
theorem add_to_cart_line_total (cart : List CartLine) (product supplier : String)
    (price : ℚ) (qty : ℤ) (weight_str : String)
    (_hp : 0 ≤ price) (_hq : 1 ≤ qty) :
    add_to_cart cart product supplier price qty weight_str =
      cart ++ [{ orderID := none, product := product, supplier := supplier,
                 price := price, qty := qty, weight := weight_str,
                 lineTotal := price * qty }] := rfl

/-- Witness for C9 at the spec's scenario: Butter at 290.0, quantity 2,
giving `LineTotal = 580`. -/
theorem add_to_cart_line_total_witness :
    add_to_cart [] "Butter" "Blink IT" (290 : ℚ) (2 : ℤ) "" =
      [] ++ [{ orderID := none, product := "Butter", supplier := "Blink IT",
               price := (290 : ℚ), qty := (2 : ℤ), weight := "",
               lineTotal := (290 : ℚ) * (2 : ℤ) }] :=
  add_to_cart_line_total [] "Butter" "Blink IT" 290 2 "" (by norm_num) (by norm_num)

/-- C1: saving a non-empty cart and then clearing it grows the ledger by
exactly `len(cart)` rows, every newly appended row carries the generated
`order_id` and the `created_at` timestamp of this save, the written ledger is
the old one followed by those rows, and the cart is empty afterwards. -/
theorem save_order_then_clear (existing : Option (List OrderRow))
    (cart : List CartLine) (discount_pct : ℚ) (order_id now : String)
    (_hne : cart ≠ []) :
    (save_order existing cart discount_pct order_id now).2.2.length =
      (existing.getD []).length + cart.length ∧
    (∀ r ∈ (save_order existing cart discount_pct order_id now).2.1,
      r.orderID = order_id ∧ r.timestamp = now) ∧
    (save_order existing cart discount_pct order_id now).2.2 =
      existing.getD [] ++ (save_order existing cart discount_pct order_id now).2.1 ∧
    clear_cart cart = [] := by
  refine ⟨?_, ?_, ?_, rfl⟩
  · cases existing <;> simp [save_order]
  · intro r hr
    cases existing <;>
      · simp only [save_order] at hr
        obtain ⟨line, _, rfl⟩ := List.mem_map.mp hr
        exact ⟨rfl, rfl⟩
  · cases existing <;> simp [save_order]

/-- The spec's scenario line: Butter at 290.0, quantity 2, line total 580. -/
def butterLine : CartLine :=
  ⟨none, "Butter", "Blink IT", 290, 2, "", 580⟩

/-- Witness for C1: one-line cart, empty prior ledger. -/
theorem save_order_then_clear_witness :
    (save_order none [butterLine] (10 : ℚ) "AB12CD34" "ts").2.2.length =
      ((none : Option (List OrderRow)).getD []).length + [butterLine].length ∧
    (∀ r ∈ (save_order none [butterLine] (10 : ℚ) "AB12CD34" "ts").2.1,
      r.orderID = "AB12CD34" ∧ r.timestamp = "ts") ∧
    (save_order none [butterLine] (10 : ℚ) "AB12CD34" "ts").2.2 =
      (none : Option (List OrderRow)).getD [] ++
        (save_order none [butterLine] (10 : ℚ) "AB12CD34" "ts").2.1 ∧
    clear_cart [butterLine] = [] :=
  save_order_then_clear none [butterLine] 10 "AB12CD34" "ts" (List.cons_ne_nil _ _)

/-- C3: the ledger written by `save_order` is exactly the previously existing
rows, unchanged and in their original order, followed by the new rows; no
existing row is reordered, modified, or deleted (and `save_order` is the only
operation of the system that writes the ledger). -/
theorem save_order_preserves_ledger (l : List OrderRow) (cart : List CartLine)
    (discount_pct : ℚ) (order_id now : String) :
    (save_order (some l) cart discount_pct order_id now).2.2 =
      l ++ (save_order (some l) cart discount_pct order_id now).2.1 ∧
    (save_order (some l) cart discount_pct order_id now).2.1 =
      cart.map (order_row_of_line order_id now discount_pct) := by
  exact ⟨rfl, rfl⟩

/-- C6: saving an empty cart appends zero rows, leaving the ledger's row
contents (and hence its length) unchanged. -/
theorem save_order_empty_cart (existing : Option (List OrderRow))
    (discount_pct : ℚ) (order_id now : String) :
    (save_order existing [] discount_pct order_id now).2.1 = [] ∧
    (save_order existing [] discount_pct order_id now).2.2 = existing.getD [] := by
  cases existing <;> simp [save_order]

/-!
Python string primitives used by the category / id / filename code, embedded
over `List Char`.
-/

/-- Python substring containment `needle in hay`. -/
def containsSub (needle : List Char) : List Char → Bool
  | [] => needle.isEmpty
  | c :: t => needle.isPrefixOf (c :: t) || containsSub needle t

/-- Python `s.split(sep)` for a one-character separator: splits at every
occurrence of `sep`, keeping empty pieces; the result is never empty. -/
def pySplit (sep : Char) : List Char → List (List Char)
  | [] => [[]]
  | c :: t =>
    match pySplit sep t with
    | [] => [[]]
    | g :: gs => if c = sep then [] :: g :: gs else (c :: g) :: gs

/-- Helper for `pySplitWs`: accumulates the current word (reversed). -/
def pySplitWsAux : List Char → List Char → List (List Char)
  | acc, [] => if acc = [] then [] else [acc.reverse]
  | acc, c :: t =>
    if c.isWhitespace then
      if acc = [] then pySplitWsAux [] t else acc.reverse :: pySplitWsAux [] t
    else pySplitWsAux (c :: acc) t

/-- Python `s.split()` with no argument: splits on runs of whitespace and
drops empty pieces. -/
def pySplitWs (l : List Char) : List (List Char) := pySplitWsAux [] l

/-- Python `s.strip()`: removes leading and trailing whitespace. -/
def pyStrip (l : List Char) : List Char :=
  ((l.dropWhile Char.isWhitespace).reverse.dropWhile Char.isWhitespace).reverse

/-- `pySplit` never returns the empty list of pieces. -/
theorem pySplit_ne_nil (sep : Char) (l : List Char) : pySplit sep l ≠ [] := by
  cases l with
  | nil => simp [pySplit]
  | cons c t =>
    simp only [pySplit]
    cases h : pySplit sep t with
    | nil => simp
    | cons g gs => by_cases hc : c = sep <;> simp [hc]

/-- Splitting `l ++ sep :: rest` when `sep` does not occur in `l` yields `l`
as the first piece, followed by the pieces of `rest`. -/
theorem pySplit_append (sep : Char) (l rest : List Char)
    (h : ∀ c ∈ l, c ≠ sep) :
    pySplit sep (l ++ sep :: rest) = l :: pySplit sep rest := by
  induction l with
  | nil =>
    simp only [List.nil_append, pySplit]
    rcases hr : pySplit sep rest with _ | ⟨g, gs⟩
    · exact absurd hr (pySplit_ne_nil sep rest)
    · simp
  | cons c t ih =>
    have hc : c ≠ sep := h c (List.mem_cons_self c t)
    have ht : ∀ x ∈ t, x ≠ sep := fun x hx => h x (List.mem_cons_of_mem c hx)
    simp only [List.cons_append, pySplit, List.append_eq]
    rw [ih ht]
    simp [hc]

/-- The first piece of `pySplit sep l` is the longest separator-free
initial segment of `l`. -/
theorem pySplit_headD (sep : Char) (l : List Char) :
    (pySplit sep l).headD [] = l.takeWhile (· != sep) := by
  induction l with
  | nil => simp [pySplit]
  | cons c t ih =>
    simp only [pySplit]
    rcases hr : pySplit sep t with _ | ⟨g, gs⟩
    · exact absurd hr (pySplit_ne_nil sep t)
    · rw [hr] at ih
      by_cases hc : c = sep
      · subst hc
        simp [List.takeWhile_cons]
      · simp only [if_neg hc, List.headD_cons, List.takeWhile_cons]
        have : (c != sep) = true := bne_iff_ne.mpr hc
        simp [this, ← ih]

/-- Every character of `pyStrip l` occurs in `l`. -/
theorem mem_of_mem_pyStrip {c : Char} {l : List Char} (h : c ∈ pyStrip l) :
    c ∈ l := by
  have h1 : c ∈ (l.dropWhile Char.isWhitespace).reverse.dropWhile Char.isWhitespace := by
    simpa [pyStrip] using h
  have h2 := (List.dropWhile_sublist (l := (l.dropWhile Char.isWhitespace).reverse)
    (p := Char.isWhitespace)).mem h1
  have h3 : c ∈ l.dropWhile Char.isWhitespace := by simpa using h2
  exact (List.dropWhile_sublist (l := l) (p := Char.isWhitespace)).mem h3

/-!
Category derivation and the weight-applicability flag
(`Product_order_list.py`, lines 30-62 and 143-155).
-/

/-- The reserved token `"Bread_Product"`. -/
def breadTok : List Char := "Bread_Product".toList

/-- The reserved token `"Packing_Product"`. -/
def packingTok : List Char := "Packing_Product".toList

/-- `extract_category_from_productlist(s)` (lines 30-50): scan the
whitespace-separated tokens of `s` for one containing `"Product"`; if found,
return its part before the first `"_"` with `"_Product"` appended (or the
token itself when it has no `"_"`).  Otherwise, if `s` contains `"_"`, return
`first_token + "_Product"` when the second `"_"`-separated token starts
(case-insensitively) with `"product"`, else just the first token; with no
`"_"` at all, return `"General"`.  (The function's initial
`if ... : pass` block is dead code and is not modelled.) -/
def extract_category_from_productlist (s : List Char) : List Char :=
  match (pySplitWs s).find? (fun t => containsSub ("Product".toList) t) with
  | some tok =>
    if tok.contains '_' then (pySplit '_' tok).headD [] ++ "_Product".toList
    else tok
  | none =>
    if s.contains '_' then
      let toks := pySplit '_' s
      if 2 ≤ toks.length ∧
          ("product".toList).isPrefixOf ((toks.getD 1 []).map Char.toLower) then
        toks.headD [] ++ "_Product".toList
      else
        toks.headD []
    else "General".toList

/-- `weight_applicable_for_row(prodlist)` (lines 52-62): `False` when
`"Bread_Product"` or `"Packing_Product"` occurs as a substring, or when
`extract_category_from_productlist` returns one of those two tokens;
`True` otherwise. -/
def weight_applicable_for_row (s : List Char) : Bool :=
  if containsSub breadTok s || containsSub packingTok s then false
  else if extract_category_from_productlist s == breadTok
      || extract_category_from_productlist s == packingTok then false
  else true

/-- `extract_category(x)`, the catalog loader's category rule
(lines 143-153 inside `load_products`): preserve `"Bread_Product"` /
`"Packing_Product"` when present as a substring; otherwise the part before
the first `"_"`; `"General"` when there is no `"_"`. -/
def extract_category (s : List Char) : List Char :=
  if containsSub breadTok s then breadTok
  else if containsSub packingTok s then packingTok
  else if s.contains '_' then (pySplit '_' s).headD []
  else "General".toList

/-- C5: the loader's category rule.  A code containing `"Bread_Product"`
yields `"Bread_Product"`; one containing `"Packing_Product"` (and not
`"Bread_Product"`) yields `"Packing_Product"`; otherwise a code containing
`"_"` yields the part before the first `"_"`, and a code with no `"_"`
yields the sentinel `"General"`; in particular
`"Milk_Product_1_Cheese"` yields `"Milk"`. -/
theorem extract_category_spec (s : List Char) :
    (containsSub breadTok s = true → extract_category s = breadTok) ∧
    (containsSub breadTok s = false → containsSub packingTok s = true →
      extract_category s = packingTok) ∧
    (containsSub breadTok s = false → containsSub packingTok s = false →
      s.contains '_' = true →
      extract_category s = s.takeWhile (· != '_')) ∧
    (containsSub breadTok s = false → containsSub packingTok s = false →
      s.contains '_' = false → extract_category s = "General".toList) ∧
    extract_category ("Milk_Product_1_Cheese".toList) = "Milk".toList := by
  refine ⟨?_, ?_, ?_, ?_, by decide⟩
  · intro h1; simp [extract_category, h1]
  · intro h1 h2; simp [extract_category, h1, h2]
  · intro h1 h2 h3
    have h3m : '_' ∈ s := by simpa using h3
    simp [extract_category, h1, h2, h3m]
    simpa using pySplit_headD '_' s
  · intro h1 h2 h3
    have h3m : '_' ∉ s := by simpa using h3
    simp [extract_category, h1, h2, h3m]

/-- Witness for C5 on a concrete non-reserved code with an underscore. -/
theorem extract_category_spec_witness :
    extract_category ("Sauces_Product_6_Tomato".toList) =
      ("Sauces_Product_6_Tomato".toList).takeWhile (· != '_') :=
  (extract_category_spec ("Sauces_Product_6_Tomato".toList)).2.2.1
    (by decide) (by decide) (by decide)

/-- C4 counterexample: for the code `"xBread_Product_1"` the derived category
(`extract_category_from_productlist`) is `"xBread_Product"`, which is neither
reserved token, yet `weight_applicable_for_row` is `false` — refuting
"for every code whose category is not reserved, weight_applicable is true"
(the substring test fires even though the category is not reserved). -/
theorem weight_applicable_counterexample :
    weight_applicable_for_row ("xBread_Product_1".toList) = false ∧
    extract_category_from_productlist ("xBread_Product_1".toList) ≠ breadTok ∧
    extract_category_from_productlist ("xBread_Product_1".toList) ≠ packingTok := by
  decide

/-- C4 as amended: `weight_applicable_for_row` is `false` iff the code
contains `"Bread_Product"` or `"Packing_Product"` as a substring, or its
derived category equals one of those two reserved tokens; it is `true` for
every other code. -/
theorem weight_applicable_iff (s : List Char) :
    weight_applicable_for_row s = false ↔
      (containsSub breadTok s = true ∨ containsSub packingTok s = true ∨
       extract_category_from_productlist s = breadTok ∨
       extract_category_from_productlist s = packingTok) := by
  cases hb : containsSub breadTok s <;> cases hp : containsSub packingTok s <;>
    cases he : extract_category_from_productlist s == breadTok <;>
      cases he2 : extract_category_from_productlist s == packingTok <;>
        simp_all [weight_applicable_for_row, beq_iff_eq, beq_eq_false_iff_ne]

/-!
Price coercion in `load_products` (line 158):
`df["Price"] = pd.to_numeric(df["Price"], errors="coerce").fillna(0.0)`.
-/

/-- One cell of the catalog's Price column as `pd.to_numeric` sees it:
a value that parses as a number, a non-numeric value, or a missing cell
(the latter two become NaN and are then filled with `0.0`). -/
inductive PriceCell where
  | num (q : ℚ)
  | nonNumeric
  | missing
  deriving Repr, DecidableEq

/-- Per-cell effect of `pd.to_numeric(..., errors="coerce").fillna(0.0)`:
numeric values pass through unchanged, non-numeric and missing become `0`. -/
def coerce_price : PriceCell → ℚ
  | .num q => q
  | .nonNumeric => 0
  | .missing => 0

/-- The Price column produced by `load_products`. -/
def price_column (cells : List PriceCell) : List ℚ :=
  cells.map coerce_price

/-- C7 counterexample: a catalog row whose Price cell holds the number `-5`
comes out of `load_products` as `-5`, which is negative — the coercion
enforces no non-negativity. -/
theorem price_nonneg_counterexample :
    price_column [PriceCell.num (-5)] = [(-5 : ℚ)] ∧ ¬ (0 : ℚ) ≤ (-5 : ℚ) := by
  refine ⟨rfl, by norm_num⟩

/-- C7 as amended: non-numeric and missing Price cells are replaced by `0`,
and numeric cells are preserved unchanged (negative values included);
the column is this coercion applied row-wise. -/
theorem coerce_price_spec :
    coerce_price PriceCell.nonNumeric = 0 ∧
    coerce_price PriceCell.missing = 0 ∧
    (∀ q : ℚ, coerce_price (PriceCell.num q) = q) ∧
    (∀ cells : List PriceCell, price_column cells = cells.map coerce_price) :=
  ⟨rfl, rfl, fun _ => rfl, fun _ => rfl⟩

/-!
Order-id generation (line 192):
`order_id = str(uuid.uuid4()).split("-")[0].upper()`.
-/

/-- The lowercase hex digit for a nibble, as `"%x"` renders it. -/
def hexDigit (k : Nat) : Char :=
  if k < 10 then Char.ofNat (48 + k) else Char.ofNat (87 + k)

/-- Fixed-width lowercase hex rendering of the low `n` nibbles of `m`. -/
def hexFixed : Nat → Nat → List Char
  | 0, _ => []
  | n + 1, m => hexFixed n (m / 16) ++ [hexDigit (m % 16)]

/-- `uuid.uuid4()`: 128 random bits with the RFC 4122 variant bits and the
version-4 nibble forced, as `uuid.UUID(bytes=os.urandom(16), version=4)`
does. -/
def uuid4_int (r : Nat) : Nat :=
  let mask128 := 2 ^ 128 - 1
  let i := r % 2 ^ 128
  let i := i &&& (mask128 ^^^ (0xc000 <<< 48)) ||| (0x8000 <<< 48)
  i &&& (mask128 ^^^ (0xf000 <<< 64)) ||| (4 <<< 76)

/-- `str(uuid)`: the 32 lowercase hex digits of the 128-bit value in
8-4-4-4-12 groups separated by hyphens. -/
def uuid_str (u : Nat) : List Char :=
  hexFixed 8 (u / 16 ^ 24) ++ '-' ::
    (hexFixed 4 (u / 16 ^ 20) ++ '-' ::
      (hexFixed 4 (u / 16 ^ 16) ++ '-' ::
        (hexFixed 4 (u / 16 ^ 12) ++ '-' :: hexFixed 12 u)))

/-- `str(uuid.uuid4()).split("-")[0].upper()` applied to the random
128-bit input `r`. -/
def gen_order_id (r : Nat) : List Char :=
  ((pySplit '-' (uuid_str (uuid4_int r))).headD []).map Char.toUpper

/-- `hexFixed` always renders exactly `n` characters. -/
theorem hexFixed_length (n : Nat) : ∀ m, (hexFixed n m).length = n := by
  induction n with
  | zero => intro m; rfl
  | succ k ih => intro m; simp [hexFixed, ih]

/-- Every nibble renders to a character that is not a hyphen and whose
uppercase form is an uppercase letter or a digit. -/
theorem hexDigit_good : ∀ k, k < 16 →
    hexDigit k ≠ '-' ∧
      ((hexDigit k).toUpper.isUpper = true ∨ (hexDigit k).toUpper.isAlpha = false) := by
  decide

/-- Every character of a `hexFixed` rendering is some nibble's digit. -/
theorem mem_hexFixed {c : Char} :
    ∀ {n m : Nat}, c ∈ hexFixed n m → ∃ k, k < 16 ∧ c = hexDigit k := by
  intro n
  induction n with
  | zero => intro m h; simp [hexFixed] at h
  | succ j ih =>
    intro m h
    simp only [hexFixed, List.mem_append, List.mem_singleton] at h
    rcases h with h | h
    · exact ih h
    · exact ⟨m % 16, Nat.mod_lt _ (by norm_num), h⟩

/-- The first hyphen-separated segment of `str(uuid)` is its first 8 hex
digits. -/
theorem uuid_str_first_segment (u : Nat) :
    (pySplit '-' (uuid_str u)).headD [] = hexFixed 8 (u / 16 ^ 24) := by
  have hne : ∀ c ∈ hexFixed 8 (u / 16 ^ 24), c ≠ '-' := by
    intro c hc
    obtain ⟨k, hk, rfl⟩ := mem_hexFixed hc
    exact (hexDigit_good k hk).1
  rw [uuid_str, pySplit_append '-' _ _ hne]
  rfl

/-- C8: every generated `order_id` is an 8-character token whose characters
are uppercase letters or non-letters (uppercased hex digits), obtained as the
first hyphen-separated segment of the random 128-bit UUID; and `save_order`
appends its rows under this id unconditionally — the ledger written is always
`existing ++ new rows`, with no ledger-wide uniqueness check of the id. -/
theorem gen_order_id_spec (r : Nat) :
    (gen_order_id r).length = 8 ∧
    (∀ c ∈ gen_order_id r, c.isUpper = true ∨ c.isAlpha = false) ∧
    (∀ (existing : Option (List OrderRow)) (cart : List CartLine)
        (discount_pct : ℚ) (now : String),
      (save_order existing cart discount_pct (String.mk (gen_order_id r)) now).2.2 =
        existing.getD [] ++
          (save_order existing cart discount_pct
            (String.mk (gen_order_id r)) now).2.1) := by
  refine ⟨?_, ?_, ?_⟩
  · rw [gen_order_id, uuid_str_first_segment]
    simp [hexFixed_length]
  · intro c hc
    simp only [gen_order_id, uuid_str_first_segment, List.mem_map] at hc
    obtain ⟨c0, hc0, rfl⟩ := hc
    obtain ⟨k, hk, rfl⟩ := mem_hexFixed hc0
    exact (hexDigit_good k hk).2
  · intro existing cart discount_pct now
    cases existing <;> simp [save_order]

/-- Witness for C8 at the concrete random input `r = 0`. -/
theorem gen_order_id_spec_witness :
    (gen_order_id 0).length = 8 ∧
    (∀ c ∈ gen_order_id 0, c.isUpper = true ∨ c.isAlpha = false) ∧
    (∀ (existing : Option (List OrderRow)) (cart : List CartLine)
        (discount_pct : ℚ) (now : String),
      (save_order existing cart discount_pct (String.mk (gen_order_id 0)) now).2.2 =
        existing.getD [] ++
          (save_order existing cart discount_pct
            (String.mk (gen_order_id 0)) now).2.1) :=
  gen_order_id_spec 0

/-!
Placeholder-image generator (`Product_order_list_2.py`, lines 26-41):
file-name sanitization, the `generated_images` folder, and the
already-generated short-circuit.
-/

/-- The `IMAGE_FOLDER` constant, `"generated_images"`. -/
def IMAGE_FOLDER : List Char := "generated_images".toList

/-- Per-character sanitization in `generate_placeholder`:
`c if c.isalnum() or c in " _-" else "_"`. -/
def sanitize_char (c : Char) : Char :=
  if c.isAlphanum || c == ' ' || c == '_' || c == '-' then c else '_'

/-- The sanitized name before the empty-string check:
`"".join(...).strip()`. -/
def raw_safe_name (product_name : List Char) : List Char :=
  pyStrip (product_name.map sanitize_char)

/-- `safe_name` after the fallback: `"product"` when sanitization left the
empty string. -/
def safe_name (product_name : List Char) : List Char :=
  if raw_safe_name product_name = [] then "product".toList
  else raw_safe_name product_name

/-- `os.path.join(IMAGE_FOLDER, f"{safe_name}.png")`. -/
def placeholder_path (product_name : List Char) : List Char :=
  IMAGE_FOLDER ++ '/' :: (safe_name product_name ++ ".png".toList)

/-- `generate_placeholder(product_name)` with the filesystem explicit: `fs`
is the set of already-generated paths.  If the path already exists it is
returned unchanged; otherwise the image is drawn and saved.  Returns the
path, the filesystem afterwards, and whether an image file was written. -/
def generate_placeholder (fs : List (List Char)) (product_name : List Char) :
    List Char × List (List Char) × Bool :=
  let img_path := placeholder_path product_name
  if img_path ∈ fs then (img_path, fs, false)
  else (img_path, img_path :: fs, true)

/-- Every sanitized character is alphanumeric, a space, an underscore, or a
hyphen. -/
theorem sanitize_char_good (c : Char) :
    (sanitize_char c).isAlphanum = true ∨ sanitize_char c = ' ' ∨
      sanitize_char c = '_' ∨ sanitize_char c = '-' := by
  unfold sanitize_char
  split
  · rename_i h
    simp only [Bool.or_eq_true, beq_iff_eq] at h
    rcases h with ((h | h) | h) | h
    · exact Or.inl h
    · exact Or.inr (Or.inl h)
    · exact Or.inr (Or.inr (Or.inl h))
    · exact Or.inr (Or.inr (Or.inr h))
  · exact Or.inr (Or.inr (Or.inl rfl))

/-- C10: `generate_placeholder` returns the path
`generated_images/<safe_name>.png` where every character of `safe_name` is
alphanumeric, a space, an underscore or a hyphen; `safe_name` is `"product"`
when sanitization leaves the empty string; and the function is idempotent —
a second call with the same `product_name` returns the same path and writes
no image file, leaving the filesystem unchanged. -/
theorem generate_placeholder_spec (fs : List (List Char))
    (product_name : List Char) :
    (generate_placeholder fs product_name).1 =
      IMAGE_FOLDER ++ '/' :: (safe_name product_name ++ ".png".toList) ∧
    (∀ c ∈ safe_name product_name,
      c.isAlphanum = true ∨ c = ' ' ∨ c = '_' ∨ c = '-') ∧
    (raw_safe_name product_name = [] →
      safe_name product_name = "product".toList) ∧
    generate_placeholder (generate_placeholder fs product_name).2.1
        product_name =
      ((generate_placeholder fs product_name).1,
        (generate_placeholder fs product_name).2.1, false) := by
  refine ⟨?_, ?_, ?_, ?_⟩
  · have hp : (generate_placeholder fs product_name).1 = placeholder_path product_name := by
      by_cases h : placeholder_path product_name ∈ fs <;>
        simp [generate_placeholder, h]
    rw [hp, placeholder_path]
  · intro c hc
    unfold safe_name at hc
    split at hc
    · have hall : ∀ x ∈ ("product".toList),
          x.isAlphanum = true ∨ x = ' ' ∨ x = '_' ∨ x = '-' := by decide
      exact hall c hc
    · have hmem : c ∈ product_name.map sanitize_char :=
        mem_of_mem_pyStrip hc
      obtain ⟨c0, _, rfl⟩ := List.mem_map.mp hmem
      exact sanitize_char_good c0
  · intro h
    simp [safe_name, h]
  · by_cases h : placeholder_path product_name ∈ fs <;>
      simp [generate_placeholder, h]

/-- Witness for C10 at a concrete product name with special characters and
an empty filesystem. -/
theorem generate_placeholder_spec_witness :
    (generate_placeholder [] ("Pizza Base 10»".toList)).1 =
      IMAGE_FOLDER ++ '/' ::
        (safe_name ("Pizza Base 10»".toList) ++ ".png".toList) ∧
    (∀ c ∈ safe_name ("Pizza Base 10»".toList),
      c.isAlphanum = true ∨ c = ' ' ∨ c = '_' ∨ c = '-') ∧
    (raw_safe_name ("Pizza Base 10»".toList) = [] →
      safe_name ("Pizza Base 10»".toList) = "product".toList) ∧
    generate_placeholder
        (generate_placeholder [] ("Pizza Base 10»".toList)).2.1
        ("Pizza Base 10»".toList) =
      ((generate_placeholder [] ("Pizza Base 10»".toList)).1,
        (generate_placeholder [] ("Pizza Base 10»".toList)).2.1, false) :=
  generate_placeholder_spec [] ("Pizza Base 10»".toList)
